import Mathlib

/-!
Shallow embedding of the mmengine repository components under verification:

* mmengine/config/lazy.py - LazyObject / LazyAttr deferred-import
  placeholders;
* mmengine/runner/_flexible_runner.py - hook registration and invocation,
  constructor triad validation, checkpoint save/resume counter handling,
  the resume GPU-count consistency check, and load_or_resume of the
  FlexibleRunner class;
* mmengine/_strategy/base_strategy.py - BaseStrategy._build_param_scheduler.

Conventions: Python None/non-None arguments are embedded as Option;
raising an exception is embedded as returning an Except error; in-place
mutation of an argument (dict.pop) is embedded by returning the mutated
value alongside the ordinary result; log calls are embedded as booleans or
dropped where no claim depends on them.
-/

namespace Mmengine

/-! ### Definitions: mmengine/config/lazy.py -/

/-- Embedding of the module argument of LazyObject.__init__: either a plain
string (import xxx.yyy as zzz / from xxx.yyy import zzz) or a sequence of
strings (import xxx.yyy; import xxx.zzz).  The sequence form is produced by
the config parser only with at least one element (cf. the class docstring),
so it is embedded with an explicit first element. -/
inductive ModPath where
  | single (s : String)
  | multi (first : String) (rest : List String)
deriving DecidableEq, Repr

/-- Embedding of LazyObject: an unresolved import target.  Construction
never performs the import; the fields are exactly the attributes set by
__init__. -/
structure LazyObject where
  _module : ModPath
  _imported : Option String
  location : Option String
deriving DecidableEq, Repr

/-- The LazyObject.module property: the module string itself, or, for the
sequence form, the root package given by splitting the first entry at dots
and taking the first component.  String.splitOn never returns the empty
list, so headD is exact. -/
def LazyObject.module (o : LazyObject) : String :=
  match o._module with
  | .single s => s
  | .multi first _ => (first.splitOn ".").headD first

/-- LazyObject.__str__: the _imported name if set, else the module
property. -/
def LazyObject.str (o : LazyObject) : String :=
  match o._imported with
  | some i => i
  | none => o.module

/-- LazyObject.__deepcopy__: builds LazyObject(self._module, self._imported,
self.location) - a fresh unresolved LazyObject; no import is performed
(the body is a bare constructor call). -/
def LazyObject.deepcopy (o : LazyObject) : LazyObject :=
  ⟨o._module, o._imported, o.location⟩

/-- Embedding of LazyAttr: an attribute of a LazyObject or of another
LazyAttr.  The Python class stores name, source and location; the two
constructors distinguish the dynamic type of source.  The location is
either None or the list produced in LazyObject.__getattr__ by splitting
self.location at the text given by a comma, a blank and the word line. -/
inductive LazyAttr where
  | ofObj (name : String) (src : LazyObject) (location : Option (List String))
  | ofAttr (name : String) (src : LazyAttr) (location : Option (List String))
deriving DecidableEq, Repr

/-- Accessor for the name attribute of a LazyAttr. -/
def LazyAttr.name : LazyAttr → String
  | .ofObj n _ _ => n
  | .ofAttr n _ _ => n

/-- Accessor for the source attribute of a LazyAttr (a LazyObject or a
LazyAttr). -/
def LazyAttr.source : LazyAttr → LazyObject ⊕ LazyAttr
  | .ofObj _ s _ => .inl s
  | .ofAttr _ s _ => .inr s

/-- The _module attribute as computed by LazyAttr.__init__: for a
LazyObject source it is the source _module (string form) or str(source)
(sequence form); for a LazyAttr source it is the source _module, a dot,
and the source name. -/
def LazyAttr._module : LazyAttr → String
  | .ofObj _ src _ =>
    match src._module with
    | .single s => s
    | .multi _ _ => src.str
  | .ofAttr _ src _ => src._module ++ "." ++ src.name

/-- The LazyAttr.module property: the source body is the bare expression
self._module with no return statement, so the property evaluates the
attribute, discards it, and returns None. -/
def LazyAttr.module (a : LazyAttr) : Option String :=
  let _ := a._module
  none

/-- LazyObject.__getattr__: returns LazyAttr(name, self, location) where
location is self.location split at the text of a comma, a blank and the
word line, when self.location is not None.  No import is performed (the
body only constructs). -/
def LazyObject.getattr (o : LazyObject) (name : String) : LazyAttr :=
  .ofObj name o (o.location.map (fun s => s.splitOn ", line"))

/-- LazyAttr.__getattr__: returns LazyAttr(name, self), the location
argument defaulted to None.  No import is performed. -/
def LazyAttr.getattr (a : LazyAttr) (name : String) : LazyAttr :=
  .ofAttr name a none

/-- LazyAttr.__deepcopy__: builds LazyAttr(self.name, self.source) - a
fresh LazyAttr with the same name and source, location defaulted to None;
no import is performed. -/
def LazyAttr.deepcopy : LazyAttr → LazyAttr
  | .ofObj n s _ => .ofObj n s none
  | .ofAttr n s _ => .ofAttr n s none

/-- A chain of attribute accesses starting from a LazyObject: first the
access of n on o, then the accesses of the names in ms, via repeated
__getattr__. -/
def attrChain (o : LazyObject) (n : String) (ms : List String) : LazyAttr :=
  ms.foldl (fun a m => a.getattr m) (o.getattr n)

/-- The base of the dotted module path that a chain starting at o
accumulates: the _module string for the string form, str(o) for the
sequence form.  This is what LazyAttr.__init__ reads off a LazyObject
source. -/
def attrBase (o : LazyObject) : String :=
  match o._module with
  | .single s => s
  | .multi _ _ => o.str

/-- Joins a list of path components with dots. -/
def dotJoin : List String → String
  | [] => ""
  | [s] => s
  | s :: t :: r => s ++ "." ++ dotJoin (t :: r)

/-! ### Definitions: hook system (mmengine/runner/_flexible_runner.py)

Hook priorities are embedded as their numeric value: get_priority (from
mmengine/runner/priority.py, outside this source tree) converts an
int/str/Priority priority into an integer where a lower value runs
earlier, and every read of a priority in _flexible_runner.py goes through
get_priority, so we carry the converted number directly. -/

/-- Outcome of calling one hook method with the kwargs of a call_hook
invocation: the call either returns, or raises TypeError with a message
(the kwargs are rejected by the signature of the callback). -/
inductive CallOutcome where
  | ok
  | typeErr (msg : String)
deriving DecidableEq, Repr

/-- Embedding of a built Hook object.  name models str(hook) as used in
error annotations; regIdx is ghost bookkeeping recording the position of
the hook in the registration sequence (Python object identity); methods
lists the stage-method names the hook defines (hasattr) together with the
outcome of calling each. -/
structure Hook where
  name : String
  priority : Nat
  regIdx : Nat
  methods : List (String × CallOutcome)
deriving DecidableEq, Repr

/-- Whether hasattr(hook, fn_name) holds. -/
def hookDefines (h : Hook) (fn : String) : Bool :=
  (h.methods.lookup fn).isSome

/-- FlexibleRunner.call_hook: iterates over self._hooks in order; for each
hook defining the method it calls it; a TypeError from the callback is
re-raised as TypeError with the text of the original error, the word in,
and the hook, and stops the iteration.  Returns the hooks whose method was
called, in order, together with the raised error message if any. -/
def call_hook : List Hook → String → List Hook × Option String
  | [], _ => ([], none)
  | h :: hs, fn =>
    match h.methods.lookup fn with
    | none => call_hook hs fn
    | some .ok =>
      let r := call_hook hs fn
      (h :: r.1, r.2)
    | some (.typeErr m) => ([h], some (m ++ " in " ++ h.name))

/-- The insertion scan of FlexibleRunner.register_hook: the Python loop
walks i from the last index down to 0 and inserts the new hook at i + 1
at the first i whose hook has priority at most the new one.  This
recursion returns the list with the insertion done when such an i exists
in the scanned part, and none otherwise. -/
def insertFromTail (hooks : List Hook) (h : Hook) : Option (List Hook) :=
  match hooks with
  | [] => none
  | x :: xs =>
    match insertFromTail xs h with
    | some xs' => some (x :: xs')
    | none => if h.priority ≥ x.priority then some (x :: h :: xs) else none

/-- The tail of FlexibleRunner.register_hook: insert via the tail scan; if
no existing hook has priority at most the new one, insert at position 0. -/
def insert_hook (hooks : List Hook) (h : Hook) : List Hook :=
  (insertFromTail hooks h).getD (h :: hooks)

/-- FlexibleRunner.register_hook for an already-built Hook argument: an
explicit priority argument overrides the priority of the hook, then the
hook is inserted. -/
def register_hook (hooks : List Hook) (hook : Hook) (priority : Option Nat) :
    List Hook :=
  let hook_obj :=
    match priority with
    | some p => { hook with priority := p }
    | none => hook
  insert_hook hooks hook_obj

/-- A hook config dict, as passed to register_hook.  A Python dict has
unique keys; values are embedded as the numeric payload relevant to the
modelled code (the only config value _flexible_runner.py itself reads is
the priority - the remaining entries are passed opaquely to HOOKS.build). -/
abbrev HookCfg := List (String × Nat)

/-- Removal of a key from a config dict (a Python dict holds each key at
most once, so this removes exactly the popped entry). -/
def eraseKey (key : String) : HookCfg → HookCfg
  | [] => []
  | kv :: rest => if kv.1 = key then eraseKey key rest else kv :: eraseKey key rest

/-- The dict branch head of FlexibleRunner.register_hook: when the key
priority is in the dict, pop it - returning its value and removing the
key from the dict in place. -/
def popPriority (cfg : HookCfg) : Option Nat × HookCfg :=
  match cfg.lookup "priority" with
  | some v => (some v, eraseKey "priority" cfg)
  | none => (none, cfg)

/-- FlexibleRunner.register_hook for a dict argument: pop the priority key
if present, build the hook from the remaining dict (HOOKS.build is outside
the modelled code and passed in as an abstract builder), override its
priority with the explicit argument if given, else with the popped value
if present, and insert.  Returns the new hook list and the dict as left
mutated. -/
def register_hook_cfg (build : HookCfg → Hook) (hooks : List Hook)
    (cfg : HookCfg) (priority : Option Nat) : List Hook × HookCfg :=
  let popped := popPriority cfg
  let hook_obj := build popped.2
  let hook_obj :=
    match priority, popped.1 with
    | some p, _ => { hook_obj with priority := p }
    | none, some p => { hook_obj with priority := p }
    | none, none => hook_obj
  (insert_hook hooks hook_obj, popped.2)

/-- A hook to be registered: its identity, effective priority and methods.
The regIdx of the built Hook is assigned from the registration position. -/
structure HookSpec where
  name : String
  priority : Nat
  methods : List (String × CallOutcome)
deriving DecidableEq, Repr

/-- Builds the Hook object for the spec registered at position idx. -/
def HookSpec.toHook (s : HookSpec) (idx : Nat) : Hook :=
  ⟨s.name, s.priority, idx, s.methods⟩

/-- Registers a sequence of hooks in order via register_hook, numbering
them from idx. -/
def registerAllFrom (idx : Nat) (hooks : List Hook) :
    List HookSpec → List Hook
  | [] => hooks
  | s :: ss => registerAllFrom (idx + 1) (register_hook hooks (s.toHook idx) none) ss

/-- The hook list resulting from a sequence of register_hook calls on a
fresh runner (self._hooks starts empty). -/
def registerAll (specs : List HookSpec) : List Hook :=
  registerAllFrom 0 [] specs

/-- The strict before-order the hook list is claimed to realise: an
earlier hook has smaller priority, or equal priority and earlier
registration. -/
def hookBefore (a b : Hook) : Prop :=
  a.priority < b.priority ∨ (a.priority = b.priority ∧ a.regIdx < b.regIdx)

/-! ### Definitions: FlexibleRunner.__init__ validation (C2) -/

/-- Embedding of the shapes the param_scheduler constructor argument can
take, as distinguished by _check_scheduler_cfg. -/
inductive ParamSchedArg where
  | prebuilt
  | seqOfSched
  | seqOfDict (eachHasType : List Bool)
  | dictWithType
  | dictNoType (valuesOk : List Bool)
  | badType
deriving DecidableEq, Repr

/-- The exception kinds FlexibleRunner.__init__ can raise in its
validation phase, tagged with the check that raised. -/
inductive InitErr where
  | valueErr (check : String)
  | typeErr (check : String)
  | assertErr (check : String)
deriving DecidableEq, Repr

/-- FlexibleRunner._check_scheduler_cfg: None, a _ParamScheduler, or a
sequence of _ParamScheduler pass; a sequence of dicts must each contain
the key type (assert); a dict without the key type must have each value a
dict, tuple, list or _ParamScheduler (assert); any other type raises
TypeError. -/
def checkSchedulerCfg : ParamSchedArg → Except InitErr Unit
  | .prebuilt => .ok ()
  | .seqOfSched => .ok ()
  | .seqOfDict eachHasType =>
    if eachHasType.all (· = true) then .ok ()
    else .error (.assertErr "scheduler_dict_needs_type")
  | .dictWithType => .ok ()
  | .dictNoType valuesOk =>
    if valuesOk.all (· = true) then .ok ()
    else .error (.assertErr "scheduler_value_kind")
  | .badType => .error (.typeErr "param_scheduler_kind")

/-- The constructor arguments of FlexibleRunner that its validation phase
inspects.  Payload values are irrelevant to the checks (only None-ness is
tested), so Option Unit embeds them; compile_is_bool_or_dict embeds the
isinstance(compile, (bool, dict)) test. -/
structure InitArgs where
  train_dataloader : Option Unit
  optim_wrapper : Option Unit
  param_scheduler : Option ParamSchedArg
  train_cfg : Option Unit
  val_dataloader : Option Unit
  val_evaluator : Option Unit
  val_cfg : Option Unit
  test_dataloader : Option Unit
  test_evaluator : Option Unit
  test_cfg : Option Unit
  compile_is_bool_or_dict : Bool
deriving DecidableEq, Repr

/-- The all-None-or-all-not-None test applied to each related triple in
FlexibleRunner.__init__. -/
def triadOk (a b c : Option Unit) : Bool :=
  (a.isNone && b.isNone && c.isNone) || (a.isSome && b.isSome && c.isSome)

/-- FlexibleRunner.__init__ in source order: the steps before any
validation (storing the model, creating work_dir, copying cfg), then the
train triad check, the param_scheduler-requires-optim_wrapper check,
_check_scheduler_cfg, the val triad check, the test triad check, the
compile type check, and only then the construction of the sub-components
(strategy, env setup, log processor, logger, message hub, visualizer,
hooks).  Returns the trace of performed steps and the raised exception if
any. -/
def initRunner (a : InitArgs) : List String × Except InitErr Unit :=
  let pre := ["set_model", "mkdir_work_dir", "copy_cfg"]
  if !triadOk a.train_dataloader a.train_cfg a.optim_wrapper then
    (pre, .error (.valueErr "training_related"))
  else if a.param_scheduler.isSome && a.optim_wrapper.isNone then
    (pre, .error (.valueErr "param_scheduler_without_optim_wrapper"))
  else
    match (match a.param_scheduler with
           | none => Except.ok ()
           | some s => checkSchedulerCfg s) with
    | .error e => (pre, .error e)
    | .ok _ =>
      if !triadOk a.val_dataloader a.val_cfg a.val_evaluator then
        (pre, .error (.valueErr "val_related"))
      else if !triadOk a.test_dataloader a.test_cfg a.test_evaluator then
        (pre, .error (.valueErr "test_related"))
      else if !a.compile_is_bool_or_dict then
        (pre, .error (.typeErr "compile_kind"))
      else
        (pre ++ ["build_strategy", "setup_env", "build_log_processor",
                 "build_logger", "build_message_hub", "build_visualizer",
                 "register_hooks"],
         .ok ())

/-! ### Definitions: BaseStrategy._build_param_scheduler (C3) -/

/-- A scheduler config dict as far as _build_param_scheduler inspects it:
the type name, the optional by_epoch key, and the optional end key (endv;
end is reserved in Lean).  Remaining keys are passed through opaquely. -/
structure SchedSpec where
  type : String
  by_epoch : Option Bool
  endv : Option Nat
deriving DecidableEq, Repr

/-- One element of the scheduler list handed to _build_param_scheduler: an
already-built _ParamScheduler, a config dict, or a value of any other type
(which raises TypeError). -/
inductive SchedInput where
  | prebuilt
  | spec (s : SchedSpec)
  | badType
deriving DecidableEq, Repr

/-- A built parameter scheduler: either the pre-built object appended
as-is, or the result of PARAM_SCHEDULERS.build on the completed config
(PARAM_SCHEDULERS.build is outside the modelled code; the completed config
itself is the datum of interest). -/
inductive BuiltSched where
  | prebuilt
  | fromSpec (s : SchedSpec)
deriving DecidableEq, Repr

/-- The exception kinds _build_param_scheduler raises. -/
inductive StrategyErr where
  | valueErr (msg : String)
  | typeErr (msg : String)
deriving DecidableEq, Repr

/-- The per-element body of the _build_param_scheduler loop: a pre-built
scheduler is appended unchanged; for a dict, if by_epoch (absent defaults
to True) then max_epochs must be given and is the default end, else
max_iters must be given and is the default end; setdefault installs the
default only when the end key is absent; other types raise TypeError. -/
def buildOneScheduler (max_epochs max_iters : Option Nat) :
    SchedInput → Except StrategyErr BuiltSched
  | .prebuilt => .ok .prebuilt
  | .spec s =>
    if s.by_epoch.getD true then
      match max_epochs with
      | none => .error (.valueErr "max_epochs must be specified in default_args")
      | some e => .ok (.fromSpec { s with endv := some (s.endv.getD e) })
    else
      match max_iters with
      | none => .error (.valueErr "max_iters must be specified in default_args")
      | some n => .ok (.fromSpec { s with endv := some (s.endv.getD n) })
  | .badType => .error (.typeErr "scheduler should be a _ParamScheduler object or dict")

/-- BaseStrategy._build_param_scheduler on the scheduler list (max_epochs
and max_iters are popped from default_args by the source; they are passed
here directly).  The Python loop appends built schedulers in order and
raises at the first offending element. -/
def _build_param_scheduler (schedulers : List SchedInput)
    (max_epochs max_iters : Option Nat) : Except StrategyErr (List BuiltSched) :=
  match schedulers with
  | [] => .ok []
  | s :: rest =>
    match buildOneScheduler max_epochs max_iters s with
    | .error e => .error e
    | .ok b =>
      match _build_param_scheduler rest max_epochs max_iters with
      | .error e => .error e
      | .ok bs => .ok (b :: bs)

/-- The head of _build_param_scheduler: a non-sequence argument is wrapped
into a one-element list. -/
def wrapSchedulers : SchedInput ⊕ List SchedInput → List SchedInput
  | .inl s => [s]
  | .inr l => l

/-! ### Definitions: checkpoint counters (C4) -/

/-- The epoch/iter counters of the train loop (train_loop._epoch and
train_loop._iter). -/
structure LoopCounters where
  epoch : Nat
  iter : Nat
deriving DecidableEq, Repr

/-- The epoch/iter entries of the checkpoint meta dict. -/
structure CkptMeta where
  epoch : Nat
  iter : Nat
deriving DecidableEq, Repr

/-- The meta counters written by FlexibleRunner.save_checkpoint from the
runner counters at the time of the call: with by_epoch the saved epoch is
self.epoch + 1 (the source comment: the epoch counter increments only
after the after_train_epoch hook that calls save_checkpoint, so the saved
value is the number of completed epochs) and the saved iter is self.iter;
without by_epoch the saved iter is self.iter + 1 and the saved epoch is
self.epoch. -/
def save_checkpoint_meta (by_epoch : Bool) (c : LoopCounters) : CkptMeta :=
  if by_epoch then ⟨c.epoch + 1, c.iter⟩ else ⟨c.epoch, c.iter + 1⟩

/-- The counter restoration in FlexibleRunner.resume: train_loop._epoch
and train_loop._iter are assigned the epoch and iter entries of the
checkpoint meta. -/
def resume_counters (meta : CkptMeta) : LoopCounters :=
  ⟨meta.epoch, meta.iter⟩

/-! ### Definitions: resume GPU-count consistency check (C5) -/

/-- The auto_scale_lr constructor argument as the runner stores it in
self._auto_scale_lr: a dict whose enable key may be absent. -/
structure AutoScaleLRCfg where
  enable : Option Bool
deriving DecidableEq, Repr

/-- Result of the GPU-count consistency block of FlexibleRunner.resume:
either execution proceeds (recording whether the inconsistency notice was
logged) or an AttributeError is raised for the named missing attribute. -/
inductive ResumeGpuOutcome where
  | proceed (mismatchLogged : Bool)
  | attributeErr (attr : String)
deriving DecidableEq, Repr

/-- The GPU-count consistency block of FlexibleRunner.resume: when the
checkpoint meta contains a config whose gpu_ids entry is a non-empty list
of length different from the current world size, the inconsistency notice
is logged (logger.info, non-fatal), and then the guard of the RuntimeError
reads self.auto_scale_lr - an attribute FlexibleRunner never defines
(the constructor assigns only self._auto_scale_lr, and the class has no
base class, no auto_scale_lr property and no __getattr__), so the read
raises AttributeError whatever the stored config holds; the RuntimeError
it guards and the continue-past-the-notice path are unreachable.  Without
a mismatch the block is a no-op. -/
def resume_gpu_check (config_in_meta : Bool)
    (previous_gpu_ids : Option (List Nat)) (world_size : Nat)
    (_auto_scale_lr : Option AutoScaleLRCfg) : ResumeGpuOutcome :=
  if config_in_meta then
    match previous_gpu_ids with
    | some ids =>
      if ids.length > 0 && ids.length != world_size then
        .attributeErr "auto_scale_lr"
      else .proceed false
    | none => .proceed false
  else .proceed false

/-! ### Definitions: FlexibleRunner.load_or_resume (C9) -/

/-- The runner state read and written by load_or_resume. -/
structure LoadState where
  has_loaded : Bool
  resume : Bool
  load_from : Option String
deriving DecidableEq, Repr

/-- What one load_or_resume call did: nothing, a resume from a checkpoint
file, or a plain load of a checkpoint file. -/
inductive LoadAction where
  | noLoad
  | resumed (f : String)
  | loaded (f : String)
deriving DecidableEq, Repr

/-- FlexibleRunner.load_or_resume: returns immediately when _has_loaded is
set, or when resume is False and load_from is None; otherwise resume_from
is the latest checkpoint found in work_dir (when resume and no explicit
load_from) or load_from (when resume with explicit load_from); a non-None
resume_from sets the flag and resumes; else a non-None load_from sets the
flag and loads; else nothing happens (note: the flag stays clear when
resume is True but no checkpoint was found). -/
def load_or_resume (st : LoadState) (latest_checkpoint : Option String) :
    LoadState × LoadAction :=
  if st.has_loaded then (st, .noLoad)
  else if !st.resume && st.load_from.isNone then (st, .noLoad)
  else
    let resume_from : Option String :=
      if st.resume && st.load_from.isNone then latest_checkpoint
      else if st.resume && st.load_from.isSome then st.load_from
      else none
    match resume_from with
    | some f => ({ st with has_loaded := true }, .resumed f)
    | none =>
      match st.load_from with
      | some f => ({ st with has_loaded := true }, .loaded f)
      | none => (st, .noLoad)

/-- A sequence of load_or_resume calls on one runner, each observing the
then-latest checkpoint in work_dir. -/
def load_or_resume_seq (st : LoadState) :
    List (Option String) → LoadState × List LoadAction
  | [] => (st, [])
  | l :: ls =>
    let r := load_or_resume st l
    let rest := load_or_resume_seq r.1 ls
    (rest.1, r.2 :: rest.2)

/-- Boolean test that a hook does not raise TypeError for a stage name
(used to state the no-error side conditions decidably). -/
def noTypeErrFor (h : Hook) (fn : String) : Bool :=
  match h.methods.lookup fn with
  | some (.typeErr _) => false
  | _ => true

/-! ### Theorems: helper lemmas -/

theorem dotJoin_append_head (x y : String) (l : List String) :
    dotJoin ((x ++ "." ++ y) :: l) = x ++ "." ++ dotJoin (y :: l) := by
  cases l with
  | nil => rfl
  | cons t r => simp [dotJoin, String.append_assoc]

theorem foldl_getattr_module_name (ms : List String) (a : LazyAttr) :
    (ms.foldl (fun b m => b.getattr m) a)._module
      = dotJoin (a._module :: (a.name :: ms).dropLast)
    ∧ (ms.foldl (fun b m => b.getattr m) a).name
      = (a.name :: ms).getLast (by simp) := by
  induction ms generalizing a with
  | nil => simp [dotJoin]
  | cons m ms ih =>
    have h := ih (a.getattr m)
    constructor
    · have h1 := h.1
      simp only [List.foldl_cons]
      rw [h1]
      have hmod : (a.getattr m)._module = a._module ++ "." ++ a.name := rfl
      rw [hmod, dotJoin_append_head]
      have hname : (a.getattr m).name = m := rfl
      rw [hname]
      cases ms with
      | nil => rfl
      | cons t r => rfl
    · have h2 := h.2
      simp only [List.foldl_cons]
      rw [h2]
      have hname : (a.getattr m).name = m := rfl
      simp [hname, List.getLast_cons]

/-! ### Claim theorems: C4, C5, C7, C8 -/

/-- C4: resuming from a checkpoint sets the train loop counters to exactly
the epoch and iter values save_checkpoint recorded in the checkpoint meta
(not reset to zero, not shifted); in particular, a by-epoch checkpoint
saved inside the after_train_epoch hook of the second epoch (runner
counters epoch 1, iter 20 at the time of the call, so two epochs
completed) records meta epoch 2, iter 20, and resuming restores counters
epoch 2, iter 20 exactly. -/
theorem resume_restores_saved_counters :
    (∀ m : CkptMeta, resume_counters m = ⟨m.epoch, m.iter⟩)
    ∧ (∀ (by_epoch : Bool) (c : LoopCounters),
        resume_counters (save_checkpoint_meta by_epoch c)
          = ⟨(save_checkpoint_meta by_epoch c).epoch,
             (save_checkpoint_meta by_epoch c).iter⟩)
    ∧ (∀ e i : Nat,
        resume_counters (save_checkpoint_meta true ⟨e, i⟩) = ⟨e + 1, i⟩
        ∧ resume_counters (save_checkpoint_meta false ⟨e, i⟩) = ⟨e, i + 1⟩)
    ∧ save_checkpoint_meta true ⟨1, 20⟩ = ⟨2, 20⟩
    ∧ resume_counters (save_checkpoint_meta true ⟨1, 20⟩) = ⟨2, 20⟩ := by
  refine ⟨fun m => rfl, fun b c => rfl, fun e i => ⟨?_, ?_⟩, rfl, rfl⟩
  · simp [save_checkpoint_meta, resume_counters]
  · simp [save_checkpoint_meta, resume_counters]

/-- C5 counterexample: at the concrete resume input where the checkpoint
config records gpu_ids of length 2 while the current world size is 1, the
mismatch is fatal even with auto_scale_lr absent - the access to the
undefined attribute auto_scale_lr raises AttributeError where the claim
says mismatches are non-fatal warnings - and with rescale enabled it
raises the same AttributeError instead of the RuntimeError the claim
calls for in that case. -/
theorem resume_gpu_mismatch_counterexample :
    resume_gpu_check true (some [0, 1]) 1 none
      = .attributeErr "auto_scale_lr"
    ∧ resume_gpu_check true (some [0, 1]) 1 (some ⟨some true⟩)
      = .attributeErr "auto_scale_lr" := by
  exact ⟨rfl, rfl⟩

/-- C5 amended: during resume, a GPU-count mismatch between the
checkpoint config and the current world size first produces the logged
notice and is then always fatal, for every stored auto-scale-lr
configuration: the guard of the intended RuntimeError reads
self.auto_scale_lr, an attribute FlexibleRunner never defines (only
self._auto_scale_lr is assigned), so the read raises AttributeError and
neither the RuntimeError nor any continue-past-the-notice path is
reachable.  Without a mismatch (gpu_ids absent or empty, equal length, or
no config in the meta) the block is a no-op. -/
theorem resume_gpu_mismatch_raises_attribute_error
    (ids : List Nat) (world_size : Nat) (auto : Option AutoScaleLRCfg)
    (hne : ids.length ≠ 0) (hmis : ids.length ≠ world_size) :
    resume_gpu_check true (some ids) world_size auto
      = .attributeErr "auto_scale_lr"
    ∧ (∀ ids2 : List Nat, ids2.length = world_size →
        resume_gpu_check true (some ids2) world_size auto = .proceed false)
    ∧ resume_gpu_check true (some []) world_size auto = .proceed false
    ∧ resume_gpu_check true none world_size auto = .proceed false
    ∧ resume_gpu_check false (some ids) world_size auto = .proceed false := by
  have hguard : (ids.length > 0 && ids.length != world_size) = true := by
    simp [Nat.pos_of_ne_zero hne, hmis]
  refine ⟨by simp [resume_gpu_check, hguard], ?_,
    by simp [resume_gpu_check], by simp [resume_gpu_check],
    by simp [resume_gpu_check]⟩
  intro ids2 h2
  simp [resume_gpu_check, h2]

/-- C5 amended, witness: gpu_ids of length 2 with world size 1 raises the
AttributeError whatever the stored auto-scale-lr config holds; gpu_ids of
matching length proceed silently. -/
theorem resume_gpu_mismatch_raises_attribute_error_witness :
    resume_gpu_check true (some [0, 1]) 1 (some ⟨some true⟩)
      = .attributeErr "auto_scale_lr"
    ∧ resume_gpu_check true (some [0]) 1 (some ⟨some true⟩)
      = .proceed false := by
  constructor
  · exact (resume_gpu_mismatch_raises_attribute_error [0, 1] 1
      (some ⟨some true⟩) (by decide) (by decide)).1
  · exact (resume_gpu_mismatch_raises_attribute_error [0, 1] 1
      (some ⟨some true⟩) (by decide) (by decide)).2.1 [0] rfl

/-- C7: deep-copying an unresolved LazyObject yields a LazyObject with the
same module, imported name and location (indeed equal to the original as
an unresolved placeholder, and by type never the resolved import target;
its body performs no import, being a bare constructor call), and
deep-copying a LazyAttr yields a LazyAttr with the same name and the same
source. -/
theorem deepcopy_preserves_lazy :
    (∀ o : LazyObject,
        (LazyObject.deepcopy o)._module = o._module
        ∧ (LazyObject.deepcopy o)._imported = o._imported
        ∧ (LazyObject.deepcopy o).location = o.location
        ∧ LazyObject.deepcopy o = o)
    ∧ (∀ a : LazyAttr,
        (LazyAttr.deepcopy a).name = a.name
        ∧ (LazyAttr.deepcopy a).source = a.source) := by
  constructor
  · intro o
    exact ⟨rfl, rfl, rfl, rfl⟩
  · intro a
    cases a <;> exact ⟨rfl, rfl⟩

/-- C8: attribute access on a LazyObject or LazyAttr returns a LazyAttr
whose source is the accessed object and whose name is the attribute name
(no import: the bodies only construct); along a chain of accesses the
recorded _module string equals the dotted join of the chain base with the
intermediate attribute names, and the base agrees with the module
property of the root LazyObject in the string form and in the sequence
form without an imported name.  However the module property of a LazyAttr
evaluates to None - its body lacks a return statement - so at the
concrete chain given by attribute c of LazyObject a.b the recorded
_module is the dotted path while the property yields none. -/
theorem lazyattr_module_accumulation_and_property :
    (∀ (o : LazyObject) (n : String),
        (o.getattr n).source = .inl o ∧ (o.getattr n).name = n)
    ∧ (∀ (a : LazyAttr) (n : String),
        (a.getattr n).source = .inr a ∧ (a.getattr n).name = n)
    ∧ (∀ (o : LazyObject) (n : String) (ms : List String),
        (attrChain o n ms)._module
          = dotJoin (attrBase o :: (n :: ms).dropLast))
    ∧ (∀ (s : String) (i : Option String) (l : Option String),
        attrBase ⟨.single s, i, l⟩ = LazyObject.module ⟨.single s, i, l⟩)
    ∧ (∀ (f : String) (r : List String) (l : Option String),
        attrBase ⟨.multi f r, none, l⟩
          = LazyObject.module ⟨.multi f r, none, l⟩)
    ∧ ((LazyObject.mk (.single "a.b") none none).getattr "c")._module = "a.b"
    ∧ ((LazyObject.mk (.single "a.b") none none).getattr "c").module
        = none := by
  refine ⟨fun o n => ⟨rfl, rfl⟩, fun a n => ⟨rfl, rfl⟩, ?_,
    fun s i l => rfl, fun f r l => rfl, rfl, rfl⟩
  intro o n ms
  have h := (foldl_getattr_module_name ms (o.getattr n)).1
  have hbase : (o.getattr n)._module = attrBase o := by
    cases hm : o._module <;> simp [LazyObject.getattr, LazyAttr._module,
      attrBase, hm]
  have hname : (o.getattr n).name = n := rfl
  rw [attrChain, h, hbase, hname]

/-! ### Claim theorems: C3 -/

/-- C3: building a parameter scheduler from a dict spec with no explicit
end key sets the default end to max_epochs when the scheduler is by-epoch
(by_epoch absent or True) and to max_iters when by_epoch is False, and
raises ValueError when the required maximum is None. -/
theorem build_param_scheduler_default_end (s : SchedSpec)
    (max_epochs max_iters : Option Nat) (hend : s.endv = none) :
    (s.by_epoch.getD true = true →
      (max_epochs = none →
        _build_param_scheduler [.spec s] max_epochs max_iters
          = .error (.valueErr "max_epochs must be specified in default_args"))
      ∧ (∀ e, max_epochs = some e →
        _build_param_scheduler [.spec s] max_epochs max_iters
          = .ok [.fromSpec { s with endv := some e }]))
    ∧ (s.by_epoch.getD true = false →
      (max_iters = none →
        _build_param_scheduler [.spec s] max_epochs max_iters
          = .error (.valueErr "max_iters must be specified in default_args"))
      ∧ (∀ n, max_iters = some n →
        _build_param_scheduler [.spec s] max_epochs max_iters
          = .ok [.fromSpec { s with endv := some n }])) := by
  constructor
  · intro hby
    constructor
    · intro hme
      subst hme
      simp [_build_param_scheduler, buildOneScheduler, hby]
    · intro e hme
      subst hme
      simp [_build_param_scheduler, buildOneScheduler, hby, hend]
  · intro hby
    constructor
    · intro hmi
      subst hmi
      simp [_build_param_scheduler, buildOneScheduler, hby]
    · intro n hmi
      subst hmi
      simp [_build_param_scheduler, buildOneScheduler, hby, hend]

/-- C3 witness: with max_epochs 3 a by-epoch spec without end gets end 3;
omitting max_epochs raises ValueError; with by_epoch False and max_iters
7 the spec gets end 7. -/
theorem build_param_scheduler_default_end_witness :
    _build_param_scheduler [.spec ⟨"MultiStepLR", none, none⟩] (some 3) none
      = .ok [.fromSpec ⟨"MultiStepLR", none, some 3⟩]
    ∧ _build_param_scheduler [.spec ⟨"MultiStepLR", none, none⟩] none none
      = .error (.valueErr "max_epochs must be specified in default_args")
    ∧ _build_param_scheduler [.spec ⟨"StepLR", some false, none⟩] none (some 7)
      = .ok [.fromSpec ⟨"StepLR", some false, some 7⟩] := by
  refine ⟨?_, ?_, ?_⟩
  · exact ((build_param_scheduler_default_end ⟨"MultiStepLR", none, none⟩
      (some 3) none rfl).1 rfl).2 3 rfl
  · exact ((build_param_scheduler_default_end ⟨"MultiStepLR", none, none⟩
      none none rfl).1 rfl).1 rfl
  · exact ((build_param_scheduler_default_end ⟨"StepLR", some false, none⟩
      none (some 7) rfl).2 rfl).2 7 rfl

/-! ### Claim theorems: C10 -/

theorem lookup_eraseKey (key : String) (l : HookCfg) (k : String) :
    (eraseKey key l).lookup k = if k = key then none else l.lookup k := by
  induction l with
  | nil => simp [eraseKey]
  | cons kv rest ih =>
    obtain ⟨k1, v⟩ := kv
    by_cases h1 : k1 = key
    · rw [show eraseKey key ((k1, v) :: rest) = eraseKey key rest from by
        simp [eraseKey, h1]]
      rw [ih]
      by_cases h2 : k = key
      · simp [h2]
      · have hb : (k == k1) = false := by
          refine beq_eq_false_iff_ne.mpr ?_
          intro h
          exact h2 (h1 ▸ h)
        simp [h2, List.lookup, hb]
    · rw [show eraseKey key ((k1, v) :: rest) = (k1, v) :: eraseKey key rest from by
        simp [eraseKey, h1]]
      by_cases h3 : k = k1
      · have h2 : k ≠ key := fun h => h1 (h3 ▸ h)
        have hb : (k == k1) = true := beq_iff_eq.mpr h3
        simp [h2, List.lookup, hb]
      · have hb : (k == k1) = false := beq_eq_false_iff_ne.mpr h3
        simp [List.lookup, hb, ih]

/-- C10: registering a hook from a dict spec containing a priority key
pops that key from the caller dict in place - afterwards the dict no
longer binds priority while every other key is unchanged (the result dict
is exactly the original minus the priority entry) - and the inserted hook
carries the popped value as its priority unless the explicit priority
argument overrides it. -/
theorem register_hook_pops_priority (build : HookCfg → Hook)
    (hooks : List Hook) (cfg : HookCfg) (prio : Option Nat) (p : Nat)
    (hp : cfg.lookup "priority" = some p) :
    ((register_hook_cfg build hooks cfg prio).2.lookup "priority" = none)
    ∧ (∀ k, k ≠ "priority" →
        (register_hook_cfg build hooks cfg prio).2.lookup k = cfg.lookup k)
    ∧ (register_hook_cfg build hooks cfg prio).2 = eraseKey "priority" cfg
    ∧ (register_hook_cfg build hooks cfg prio).1
        = insert_hook hooks
            { build (eraseKey "priority" cfg) with
                priority := prio.getD p } := by
  have h2 : (register_hook_cfg build hooks cfg prio).2
      = eraseKey "priority" cfg := by
    simp [register_hook_cfg, popPriority, hp]
  refine ⟨?_, ?_, h2, ?_⟩
  · rw [h2, lookup_eraseKey]
    simp
  · intro k hk
    rw [h2, lookup_eraseKey]
    simp [hk]
  · cases prio with
    | none => simp [register_hook_cfg, popPriority, hp]
    | some q => simp [register_hook_cfg, popPriority, hp]

/-- C10 witness: popping at a concrete dict removes the priority key and
leaves the other keys bound as before. -/
theorem register_hook_pops_priority_witness :
    ((register_hook_cfg (fun _ => ⟨"H", 50, 0, []⟩) []
        [("type", 3), ("priority", 40), ("interval", 1)] none).2.lookup
          "priority" = none)
    ∧ ((register_hook_cfg (fun _ => ⟨"H", 50, 0, []⟩) []
        [("type", 3), ("priority", 40), ("interval", 1)] none).2.lookup
          "interval" = some 1)
    ∧ ((register_hook_cfg (fun _ => ⟨"H", 50, 0, []⟩) []
        [("type", 3), ("priority", 40), ("interval", 1)] none).1
        = insert_hook [] ⟨"H", 40, 0, []⟩) := by
  have h := register_hook_pops_priority (fun _ => ⟨"H", 50, 0, []⟩) []
    [("type", 3), ("priority", 40), ("interval", 1)] none 40 (by decide)
  refine ⟨h.1, ?_, ?_⟩
  · rw [h.2.1 "interval" (by decide)]
    decide
  · rw [h.2.2.2]
    rfl

/-! ### Claim theorems: C9 -/

theorem load_or_resume_of_has_loaded (st : LoadState) (l : Option String)
    (h : st.has_loaded = true) : load_or_resume st l = (st, .noLoad) := by
  simp [load_or_resume, h]

theorem load_or_resume_state_cases (st : LoadState) (l : Option String) :
    ((load_or_resume st l).2 = .noLoad ∧ (load_or_resume st l).1 = st)
    ∨ ((load_or_resume st l).2 ≠ .noLoad
       ∧ (load_or_resume st l).1 = { st with has_loaded := true }) := by
  obtain ⟨hl, r, lf⟩ := st
  cases hl
  · cases r
    · cases lf with
      | none => simp [load_or_resume]
      | some f => simp [load_or_resume]
    · cases lf with
      | none =>
        cases l with
        | none => simp [load_or_resume]
        | some f => simp [load_or_resume]
      | some f => simp [load_or_resume]
  · simp [load_or_resume]

theorem load_or_resume_seq_of_has_loaded (ls : List (Option String))
    (st : LoadState) (h : st.has_loaded = true) :
    load_or_resume_seq st ls = (st, ls.map (fun _ => .noLoad)) := by
  induction ls with
  | nil => simp [load_or_resume_seq]
  | cons l ls ih => simp [load_or_resume_seq, load_or_resume_of_has_loaded st l h, ih]

theorem load_or_resume_seq_count (ls : List (Option String)) (st : LoadState) :
    ((load_or_resume_seq st ls).2.filter (· != LoadAction.noLoad)).length ≤ 1 := by
  induction ls generalizing st with
  | nil => simp [load_or_resume_seq]
  | cons l ls ih =>
    rcases load_or_resume_state_cases st l with ⟨ha, hst⟩ | ⟨ha, hst⟩
    · simp only [load_or_resume_seq, hst, ha, List.filter_cons]
      simp [ih]
    · simp only [load_or_resume_seq, hst,
        load_or_resume_seq_of_has_loaded ls { st with has_loaded := true } rfl,
        List.filter_cons]
      have hb : ((load_or_resume st l).2 != LoadAction.noLoad) = true := by
        simpa using ha
      rw [hb]
      simp [List.filter_eq_nil_iff]

/-- C9: load_or_resume loads at most once per runner: with the _has_loaded
flag set, or with resume False and load_from None, it is a no-op leaving
the state unchanged; the flag after a call is set exactly when the call
was already loaded or performed a load/resume; after an effective call
every subsequent call does nothing; and over any sequence of calls at
most one performs a load or resume. -/
theorem load_or_resume_at_most_once :
    (∀ (r : Bool) (lf : Option String) (l : Option String),
        load_or_resume ⟨true, r, lf⟩ l = (⟨true, r, lf⟩, .noLoad))
    ∧ (∀ (hl : Bool) (l : Option String),
        load_or_resume ⟨hl, false, none⟩ l = (⟨hl, false, none⟩, .noLoad))
    ∧ (∀ (st : LoadState) (l : Option String),
        (load_or_resume st l).1.has_loaded
          = (st.has_loaded || !((load_or_resume st l).2 == LoadAction.noLoad)))
    ∧ (∀ (st : LoadState) (l l' : Option String),
        (load_or_resume st l).2 = .noLoad
        ∨ (load_or_resume (load_or_resume st l).1 l').2 = .noLoad)
    ∧ (∀ (st : LoadState) (ls : List (Option String)),
        ((load_or_resume_seq st ls).2.filter (· != LoadAction.noLoad)).length
          ≤ 1) := by
  refine ⟨?_, ?_, ?_, ?_, fun st ls => load_or_resume_seq_count ls st⟩
  · intro r lf l
    exact load_or_resume_of_has_loaded ⟨true, r, lf⟩ l rfl
  · intro hl l
    cases hl
    · simp [load_or_resume]
    · simp [load_or_resume]
  · intro st l
    rcases load_or_resume_state_cases st l with ⟨ha, hst⟩ | ⟨ha, hst⟩
    · simp [ha, hst]
    · have hb : ((load_or_resume st l).2 == LoadAction.noLoad) = false := by
        simpa using ha
      simp [hb, hst]
  · intro st l l'
    rcases load_or_resume_state_cases st l with ⟨ha, _⟩ | ⟨_, hst⟩
    · exact Or.inl ha
    · right
      rw [hst, load_or_resume_of_has_loaded _ l' rfl]

/-! ### Claim theorems: C6 -/

theorem call_hook_no_err (fn : String) : ∀ hooks : List Hook,
    hooks.all (fun h => noTypeErrFor h fn) = true →
    call_hook hooks fn = (hooks.filter (fun h => hookDefines h fn), none) := by
  intro hooks
  induction hooks with
  | nil => intro _; simp [call_hook]
  | cons h hs ih =>
    intro hall
    rw [List.all_cons] at hall
    obtain ⟨hh, hrest⟩ := Bool.and_eq_true_iff.mp hall
    cases hlk : h.methods.lookup fn with
    | none =>
      have hd : hookDefines h fn = false := by simp [hookDefines, hlk]
      simp [call_hook, hlk, List.filter_cons, hd, ih hrest]
    | some outcome =>
      cases outcome with
      | ok =>
        have hd : hookDefines h fn = true := by simp [hookDefines, hlk]
        simp [call_hook, hlk, List.filter_cons, hd, ih hrest]
      | typeErr m =>
        rw [noTypeErrFor, hlk] at hh
        exact absurd hh (by simp)

theorem call_hook_err (fn : String) (h : Hook) (m : String) (post : List Hook)
    (hm : h.methods.lookup fn = some (.typeErr m)) :
    ∀ pre : List Hook, pre.all (fun g => noTypeErrFor g fn) = true →
    call_hook (pre ++ h :: post) fn
      = (pre.filter (fun g => hookDefines g fn) ++ [h],
         some (m ++ " in " ++ h.name)) := by
  intro pre
  induction pre with
  | nil =>
    intro _
    simp [call_hook, hm]
  | cons g gs ih =>
    intro hall
    rw [List.all_cons] at hall
    obtain ⟨hg, hrest⟩ := Bool.and_eq_true_iff.mp hall
    cases hlk : g.methods.lookup fn with
    | none =>
      have hd : hookDefines g fn = false := by simp [hookDefines, hlk]
      simp [call_hook, hlk, List.filter_cons, hd, ih hrest]
    | some outcome =>
      cases outcome with
      | ok =>
        have hd : hookDefines g fn = true := by simp [hookDefines, hlk]
        simp [call_hook, hlk, List.filter_cons, hd, ih hrest]
      | typeErr m' =>
        rw [noTypeErrFor, hlk] at hg
        exact absurd hg (by simp)

/-- C6: call_hook invokes, in hook-list order, exactly the registered
hooks that define the named method (hooks lacking it are silently
skipped), and when none of them raises TypeError no error is produced;
when a hook whose preceding hooks all succeed raises TypeError, call_hook
re-raises a TypeError carrying the original message and that hook - the
error is never swallowed. -/
theorem call_hook_invokes_and_reraises (hooks : List Hook) (fn : String) :
    (hooks.all (fun h => noTypeErrFor h fn) = true →
      call_hook hooks fn = (hooks.filter (fun h => hookDefines h fn), none))
    ∧ (∀ (pre post : List Hook) (h : Hook) (m : String),
        hooks = pre ++ h :: post →
        pre.all (fun g => noTypeErrFor g fn) = true →
        h.methods.lookup fn = some (.typeErr m) →
        call_hook hooks fn
          = (pre.filter (fun g => hookDefines g fn) ++ [h],
             some (m ++ " in " ++ h.name))) := by
  constructor
  · exact call_hook_no_err fn hooks
  · intro pre post h m hsplit hall hm
    rw [hsplit]
    exact call_hook_err fn h m post hm pre hall

/-- C6 witness: a hook without the method is skipped, the hook defining
it is invoked with no error; a hook raising TypeError yields the
re-raised message carrying its identity. -/
theorem call_hook_invokes_and_reraises_witness :
    call_hook [⟨"A", 10, 0, []⟩, ⟨"B", 20, 1, [("before_run", .ok)]⟩]
        "before_run"
      = ([⟨"B", 20, 1, [("before_run", .ok)]⟩], none)
    ∧ call_hook [⟨"B", 20, 1, [("before_run", .ok)]⟩,
        ⟨"C", 30, 2, [("before_run", .typeErr "unexpected keyword")]⟩]
        "before_run"
      = ([⟨"B", 20, 1, [("before_run", .ok)]⟩,
          ⟨"C", 30, 2, [("before_run", .typeErr "unexpected keyword")]⟩],
         some "unexpected keyword in C") := by
  constructor
  · have h := (call_hook_invokes_and_reraises
      [⟨"A", 10, 0, []⟩, ⟨"B", 20, 1, [("before_run", .ok)]⟩]
      "before_run").1 (by decide)
    rw [h]
    decide
  · have h := (call_hook_invokes_and_reraises
      [⟨"B", 20, 1, [("before_run", .ok)]⟩,
       ⟨"C", 30, 2, [("before_run", .typeErr "unexpected keyword")]⟩]
      "before_run").2 [⟨"B", 20, 1, [("before_run", .ok)]⟩] []
      ⟨"C", 30, 2, [("before_run", .typeErr "unexpected keyword")]⟩
      "unexpected keyword" rfl (by decide) (by decide)
    rw [h]
    decide

/-! ### Claim theorems: C2 -/

/-- C2: FlexibleRunner construction raises ValueError whenever one of the
three triads (train_dataloader, train_cfg, optim_wrapper), (val_dataloader,
val_cfg, val_evaluator), (test_dataloader, test_cfg, test_evaluator) is
neither all None nor all non-None (for the val/test triads, provided the
earlier param_scheduler shape check itself passes, since that check runs
first in source order); in particular, train_dataloader set with
optim_wrapper None and train_cfg None yields the train-triad ValueError
with only the pre-validation steps performed - before any component
construction proceeds. -/
theorem init_triad_validation (a : InitArgs) :
    ((triadOk a.train_dataloader a.train_cfg a.optim_wrapper = false
      ∨ ((match a.param_scheduler with
          | none => Except.ok ()
          | some s => checkSchedulerCfg s) = Except.ok ()
         ∧ (triadOk a.val_dataloader a.val_cfg a.val_evaluator = false
            ∨ triadOk a.test_dataloader a.test_cfg a.test_evaluator = false)))
     → ∃ c, (initRunner a).2 = .error (.valueErr c))
    ∧ (a.train_dataloader = some () → a.train_cfg = none →
        a.optim_wrapper = none →
        initRunner a = (["set_model", "mkdir_work_dir", "copy_cfg"],
                        .error (.valueErr "training_related"))) := by
  constructor
  · intro hbad
    by_cases htr : triadOk a.train_dataloader a.train_cfg a.optim_wrapper
    · rcases hbad with hbad | ⟨hsched, hvt⟩
      · rw [htr] at hbad
        exact absurd hbad (by simp)
      · by_cases hpo : a.param_scheduler.isSome && a.optim_wrapper.isNone
        · exact ⟨"param_scheduler_without_optim_wrapper",
            by simp [initRunner, htr, hpo]⟩
        · by_cases hv : triadOk a.val_dataloader a.val_cfg a.val_evaluator
          · have ht : triadOk a.test_dataloader a.test_cfg a.test_evaluator
                = false := by
              rcases hvt with hvt | hvt
              · rw [hv] at hvt
                exact absurd hvt (by simp)
              · exact hvt
            exact ⟨"test_related",
              by simp [initRunner, htr, hpo, hsched, hv, ht]⟩
          · exact ⟨"val_related",
              by simp [initRunner, htr, hpo, hsched,
                Bool.eq_false_iff.mpr hv]⟩
    · exact ⟨"training_related",
        by simp [initRunner, Bool.eq_false_iff.mpr htr]⟩
  · intro h1 h2 h3
    simp [initRunner, triadOk, h1, h2, h3]

/-- C2 witness: a runner constructed with only train_dataloader among the
training triad fails with the train-triad ValueError, no component
construction step performed. -/
theorem init_triad_validation_witness :
    (∃ c, (initRunner ⟨some (), none, none, none, none, none, none, none,
        none, none, true⟩).2 = .error (.valueErr c))
    ∧ initRunner ⟨some (), none, none, none, none, none, none, none, none,
        none, true⟩
      = (["set_model", "mkdir_work_dir", "copy_cfg"],
         .error (.valueErr "training_related")) := by
  refine ⟨(init_triad_validation _).1 (Or.inl (by decide)),
          (init_triad_validation _).2 rfl rfl rfl⟩

/-! ### Claim theorems: C1 -/

theorem insertFromTail_eq_none (h : Hook) : ∀ l : List Hook,
    (∀ x ∈ l, ¬ x.priority ≤ h.priority) → insertFromTail l h = none := by
  intro l
  induction l with
  | nil => intro _; rfl
  | cons x xs ih =>
    intro hall
    have hrec : insertFromTail xs h = none :=
      ih (fun y hy => hall y (List.mem_cons_of_mem x hy))
    have hx : ¬ h.priority ≥ x.priority := hall x (List.mem_cons_self x xs)
    simp [insertFromTail, hrec, hx]

theorem eq_none_of_insertFromTail (h : Hook) : ∀ l : List Hook,
    insertFromTail l h = none → ∀ x ∈ l, ¬ x.priority ≤ h.priority := by
  intro l
  induction l with
  | nil =>
    intro _ x hx
    cases hx
  | cons x xs ih =>
    intro hnone y hy
    cases hrec : insertFromTail xs h with
    | some xs' =>
      simp [insertFromTail, hrec] at hnone
    | none =>
      by_cases hx : h.priority ≥ x.priority
      · simp [insertFromTail, hrec, hx] at hnone
      · rcases List.mem_cons.mp hy with rfl | hy'
        · exact hx
        · exact ih hrec y hy'

theorem insert_hook_sorted_eq (h : Hook) : ∀ l : List Hook,
    l.Pairwise (fun a b => a.priority ≤ b.priority) →
    insert_hook l h
      = l.takeWhile (fun x => x.priority ≤ h.priority)
        ++ h :: l.dropWhile (fun x => x.priority ≤ h.priority) := by
  intro l
  induction l with
  | nil => intro _; rfl
  | cons x xs ih =>
    intro hs
    rw [List.pairwise_cons] at hs
    obtain ⟨hx_le, hxs⟩ := hs
    by_cases hx : x.priority ≤ h.priority
    · have htw : (x :: xs).takeWhile (fun y => decide (y.priority ≤ h.priority))
          = x :: xs.takeWhile (fun y => decide (y.priority ≤ h.priority)) := by
        simp [List.takeWhile_cons, hx]
      have hdw : (x :: xs).dropWhile (fun y => decide (y.priority ≤ h.priority))
          = xs.dropWhile (fun y => decide (y.priority ≤ h.priority)) := by
        simp [List.dropWhile_cons, hx]
      rw [htw, hdw]
      cases hrec : insertFromTail xs h with
      | some xs' =>
        have heq : insert_hook xs h = xs' := by simp [insert_hook, hrec]
        have hcons : insert_hook (x :: xs) h = x :: xs' := by
          simp [insert_hook, insertFromTail, hrec]
        rw [hcons, ← heq, ih hxs]
        rfl
      | none =>
        have hall := eq_none_of_insertFromTail h xs hrec
        have htw2 : xs.takeWhile (fun y => decide (y.priority ≤ h.priority))
            = [] := by
          cases xs with
          | nil => rfl
          | cons z zs =>
            have hz := hall z (List.mem_cons_self z zs)
            simp [List.takeWhile_cons, hz]
        have hdw2 : xs.dropWhile (fun y => decide (y.priority ≤ h.priority))
            = xs := by
          cases xs with
          | nil => rfl
          | cons z zs =>
            have hz := hall z (List.mem_cons_self z zs)
            simp [List.dropWhile_cons, hz]
        have hins : insert_hook (x :: xs) h = x :: h :: xs := by
          simp [insert_hook, insertFromTail, hrec, hx]
        rw [hins, htw2, hdw2]
        rfl
    · have hall : ∀ y ∈ x :: xs, ¬ y.priority ≤ h.priority := by
        intro y hy
        rcases List.mem_cons.mp hy with rfl | hy'
        · exact hx
        · intro hle
          exact hx (le_trans (hx_le y hy') hle)
      have hnone := insertFromTail_eq_none h (x :: xs) hall
      have hins : insert_hook (x :: xs) h = h :: x :: xs := by
        simp [insert_hook, hnone]
      have htw : (x :: xs).takeWhile (fun y => decide (y.priority ≤ h.priority))
          = [] := by
        simp [List.takeWhile_cons, hx]
      have hdw : (x :: xs).dropWhile (fun y => decide (y.priority ≤ h.priority))
          = x :: xs := by
        simp [List.dropWhile_cons, hx]
      rw [hins, htw, hdw]
      rfl

theorem dropWhile_gt_of_sorted (h : Hook) : ∀ l : List Hook,
    l.Pairwise (fun a b => a.priority ≤ b.priority) →
    ∀ y ∈ l.dropWhile (fun x => decide (x.priority ≤ h.priority)),
      h.priority < y.priority := by
  intro l
  induction l with
  | nil =>
    intro _ y hy
    simp at hy
  | cons x xs ih =>
    intro hs
    rw [List.pairwise_cons] at hs
    obtain ⟨hx_le, hxs⟩ := hs
    by_cases hx : x.priority ≤ h.priority
    · have hdw : (x :: xs).dropWhile (fun y => decide (y.priority ≤ h.priority))
          = xs.dropWhile (fun y => decide (y.priority ≤ h.priority)) := by
        simp [List.dropWhile_cons, hx]
      rw [hdw]
      exact ih hxs
    · have hdw : (x :: xs).dropWhile (fun y => decide (y.priority ≤ h.priority))
          = x :: xs := by
        simp [List.dropWhile_cons, hx]
      rw [hdw]
      intro y hy
      rcases List.mem_cons.mp hy with rfl | hy'
      · exact not_le.mp hx
      · exact lt_of_lt_of_le (not_le.mp hx) (hx_le y hy')

theorem hookBefore_le {a b : Hook} (hab : hookBefore a b) :
    a.priority ≤ b.priority := by
  rcases hab with hlt | ⟨heq, _⟩
  · exact le_of_lt hlt
  · exact le_of_eq heq

theorem insert_hook_invariant (l : List Hook) (h : Hook) (n : Nat)
    (hp : l.Pairwise hookBefore) (hidx : ∀ x ∈ l, x.regIdx < n)
    (hh : h.regIdx = n) :
    (insert_hook l h).Pairwise hookBefore
    ∧ ∀ x ∈ insert_hook l h, x.regIdx < n + 1 := by
  have hle : l.Pairwise (fun a b => a.priority ≤ b.priority) :=
    hp.imp hookBefore_le
  rw [insert_hook_sorted_eq h l hle]
  have hsplit : (l.takeWhile (fun x => decide (x.priority ≤ h.priority))
      ++ l.dropWhile (fun x => decide (x.priority ≤ h.priority))).Pairwise
        hookBefore := by
    rw [List.takeWhile_append_dropWhile]
    exact hp
  rw [List.pairwise_append] at hsplit
  obtain ⟨htake, hdrop, hcross⟩ := hsplit
  constructor
  · rw [List.pairwise_append]
    refine ⟨htake, ?_, ?_⟩
    · rw [List.pairwise_cons]
      refine ⟨?_, hdrop⟩
      intro y hy
      exact Or.inl (dropWhile_gt_of_sorted h l hle y hy)
    · intro a ha b hb
      rcases List.mem_cons.mp hb with rfl | hb'
      · have hap : a.priority ≤ b.priority := by
          have hmem := List.mem_takeWhile_imp ha
          simpa using hmem
        rcases lt_or_eq_of_le hap with hlt | heq
        · exact Or.inl hlt
        · refine Or.inr ⟨heq, ?_⟩
          rw [hh]
          exact hidx a ((List.takeWhile_sublist _).subset ha)
      · exact hcross a ha b hb'
  · intro x hx
    rcases List.mem_append.mp hx with hx' | hx'
    · exact Nat.lt_succ_of_lt (hidx x ((List.takeWhile_sublist _).subset hx'))
    · rcases List.mem_cons.mp hx' with rfl | hx''
      · rw [hh]
        exact Nat.lt_succ_self n
      · exact Nat.lt_succ_of_lt (hidx x ((List.dropWhile_sublist _).subset hx''))

theorem registerAllFrom_invariant : ∀ (ss : List HookSpec) (idx : Nat)
    (l : List Hook), l.Pairwise hookBefore → (∀ x ∈ l, x.regIdx < idx) →
    (registerAllFrom idx l ss).Pairwise hookBefore := by
  intro ss
  induction ss with
  | nil =>
    intro idx l hp _
    exact hp
  | cons s ss ih =>
    intro idx l hp hidx
    have hstep := insert_hook_invariant l (s.toHook idx) idx hp hidx rfl
    exact ih (idx + 1) (register_hook l (s.toHook idx) none) hstep.1 hstep.2

theorem call_hook_trace_sublist (fn : String) : ∀ hooks : List Hook,
    List.Sublist (call_hook hooks fn).1 hooks := by
  intro hooks
  induction hooks with
  | nil => simp [call_hook]
  | cons h hs ih =>
    cases hlk : h.methods.lookup fn with
    | none =>
      simp only [call_hook, hlk]
      exact ih.cons h
    | some outcome =>
      cases outcome with
      | ok =>
        simp only [call_hook, hlk]
        exact ih.cons₂ h
      | typeErr m =>
        simp only [call_hook, hlk]
        exact (List.nil_sublist hs).cons₂ h

/-- C1: after any sequence of register_hook calls starting from an empty
hook list, the list is sorted by non-decreasing numeric priority and in
fact pairwise ordered by the relation hookBefore (strictly smaller
priority, or equal priority and earlier registration - so equal-priority
hooks stay in registration order); consequently the hooks that call_hook
invokes are pairwise so ordered (strictly increasing priority for
distinct priorities, registration order for ties); and inserting a
further hook into the sorted list places it immediately after the block
of hooks whose priority is at most its own - after the last such hook,
as the tail scan of register_hook finds it - and before all hooks of
strictly greater priority. -/
theorem register_hook_sorted_and_call_order (specs : List HookSpec)
    (fn : String) (h : Hook) :
    (registerAll specs).Pairwise (fun a b => a.priority ≤ b.priority)
    ∧ (registerAll specs).Pairwise hookBefore
    ∧ (call_hook (registerAll specs) fn).1.Pairwise hookBefore
    ∧ insert_hook (registerAll specs) h
        = (registerAll specs).takeWhile (fun x => x.priority ≤ h.priority)
          ++ h :: (registerAll specs).dropWhile
              (fun x => x.priority ≤ h.priority) := by
  have hp : (registerAll specs).Pairwise hookBefore := by
    refine registerAllFrom_invariant specs 0 [] List.Pairwise.nil ?_
    intro x hx
    cases hx
  have hle : (registerAll specs).Pairwise
      (fun a b => a.priority ≤ b.priority) := hp.imp hookBefore_le
  exact ⟨hle, hp,
    List.Pairwise.sublist (call_hook_trace_sublist fn (registerAll specs)) hp,
    insert_hook_sorted_eq h (registerAll specs) hle⟩

end Mmengine
